import Mathlib

/-!
Shallow embedding of the grading application's core logic
(`app/utils/grade_calculator.py`, `app/utils/email_validator.py`,
`app/utils/id_generator.py`, the model layer `app/models/*.py`, the
service layer `app/services/*.py`, and the schema constraints of
`app/database/schema.py`), together with theorems settling the frozen
claims about it.

Conventions of the embedding:
- Python `str` values are modelled as `List Char`; string literals are
  written `"...".toList`.
- Python `float` grade values are modelled as `ℚ` (exact arithmetic);
  Python `int` as `ℤ`; `round(x, 2)` as round-half-to-even on `100 * x`.
- The relational store is modelled as lists of rows; SQL statements are
  translated clause by clause (filters for WHERE, `any` for joins /
  EXISTS checks).
-/

/-! ## Grade conversion (`app/utils/grade_calculator.py`) -/

/-- Embedding of `raw_grade_to_gpa` (grade_calculator.py lines 6-25):
the if/elif ladder `raw >= 90 → 4.0`, `raw >= 80 → 3.0`, `raw >= 70 → 2.0`,
`raw >= 60 → 1.0`, else `0.0`. -/
def raw_grade_to_gpa (raw : ℚ) : ℚ :=
  if 90 ≤ raw then 4
  else if 80 ≤ raw then 3
  else if 70 ≤ raw then 2
  else if 60 ≤ raw then 1
  else 0

/-- Embedding of `raw_grade_to_letter` (grade_calculator.py lines 27-46):
the same ladder returning "A" / "B" / "C" / "D" / "F". -/
def raw_grade_to_letter (raw : ℚ) : List Char :=
  if 90 ≤ raw then "A".toList
  else if 80 ≤ raw then "B".toList
  else if 70 ≤ raw then "C".toList
  else if 60 ≤ raw then "D".toList
  else "F".toList

/-- Embedding of `total_points` from `calculate_weighted_gpa`
(grade_calculator.py line 61): `sum(raw_grade_to_gpa(grade) * credits
for grade, credits in grades)`. -/
def totalPoints (grades : List (ℚ × ℤ)) : ℚ :=
  (grades.map (fun p => raw_grade_to_gpa p.1 * (p.2 : ℚ))).sum

/-- Embedding of `total_credits` from `calculate_weighted_gpa`
(grade_calculator.py line 62): `sum(credits for _, credits in grades)`. -/
def totalCredits (grades : List (ℚ × ℤ)) : ℤ :=
  (grades.map (fun p => p.2)).sum

/-- Round half to even on `ℚ`, the semantics of Python's built-in
`round` to zero decimal places: the nearer integer, ties going to the
even neighbour. -/
def rhe (x : ℚ) : ℤ :=
  if x - (⌊x⌋ : ℚ) < 1/2 then ⌊x⌋
  else if 1/2 < x - (⌊x⌋ : ℚ) then ⌊x⌋ + 1
  else if ⌊x⌋ % 2 = 0 then ⌊x⌋ else ⌊x⌋ + 1

/-- Embedding of Python's `round(x, 2)`: round half to even at two
decimal places. -/
def pyRound2 (q : ℚ) : ℚ := ((rhe (100 * q) : ℚ)) / 100

/-- Embedding of `calculate_weighted_gpa` (grade_calculator.py lines
48-64): returns 0.0 for an empty list, else the rounded quotient when
`total_credits > 0`, else 0.0. -/
def calculate_weighted_gpa (grades : List (ℚ × ℤ)) : ℚ :=
  if grades.isEmpty then 0
  else if 0 < totalCredits grades then
    pyRound2 (totalPoints grades / (totalCredits grades : ℚ))
  else 0

/-- Embedding of `has_failing_grade` (grade_calculator.py lines 66-76):
`any(grade < 60 for grade in grades)`. -/
def has_failing_grade (grades : List ℚ) : Bool :=
  grades.any (fun g => decide (g < 60))

/-! ## Email utilities (`app/utils/email_validator.py`) -/

/-- Embedding of Python's `str.split(sep)` for a single-character
separator: splits on every occurrence of `sep`, producing the list of
(possibly empty) pieces; the empty string yields `[[]]`. -/
def pySplit (sep : Char) : List Char → List (List Char)
  | [] => [[]]
  | c :: cs =>
    if c = sep then [] :: pySplit sep cs
    else
      match pySplit sep cs with
      | [] => [[c]]
      | p :: ps => (c :: p) :: ps

/-- Embedding of `standardize_email` (email_validator.py lines 30-46):
take `email.split('@')[0]` when the string contains `'@'`, else the
whole string, and append the fixed suffix `"@outlook.com"`. -/
def standardize_email (email : List Char) : List Char :=
  (if email.contains '@' then (pySplit '@' email).headD [] else email)
    ++ "@outlook.com".toList

/-- Character class `[a-zA-Z0-9._%+-]` of the local part of the email
regex in `validate_email` (email_validator.py line 23). -/
def isLocalChar (c : Char) : Bool :=
  c.isAlpha || c.isDigit || c == '.' || c == '_' || c == '%' || c == '+' || c == '-'

/-- Character class `[a-zA-Z0-9.-]` of the domain part of the email
regex in `validate_email`. -/
def isDomainChar (c : Char) : Bool :=
  c.isAlpha || c.isDigit || c == '.' || c == '-'

/-- Matcher for the suffix `[a-zA-Z0-9.-]+\.[a-zA-Z]\x7b2,\x7d` of the email
regex: some split point `i ≥ 1` carries a `'.'`, everything before it is
a non-empty run of domain characters, and everything after it is a run
of at least two ASCII letters. -/
def domainMatch (cs : List Char) : Bool :=
  (List.range cs.length).any fun i =>
    decide (1 ≤ i) && (cs.getD i ' ' == '.') && (cs.take i).all isDomainChar
      && decide (2 ≤ (cs.drop (i + 1)).length) && (cs.drop (i + 1)).all Char.isAlpha

/-- Matcher for the anchored email regex
`^[a-zA-Z0-9._%+-]+@[a-zA-Z0-9.-]+\.[a-zA-Z]\x7b2,\x7d$` of
`validate_email`: some position `i ≥ 1` carries the `'@'` (necessarily
the first, since `'@'` is in no character class), everything before it
is a non-empty run of local characters, and the rest matches the domain
suffix. -/
def emailCore (cs : List Char) : Bool :=
  (List.range cs.length).any fun i =>
    decide (1 ≤ i) && (cs.getD i ' ' == '@') && (cs.take i).all isLocalChar
      && domainMatch (cs.drop (i + 1))

/-- Full-match semantics of Python's `re.match` with a trailing `$`: the
regex must consume the whole string, except that `$` also matches just
before a single trailing newline. -/
def emailMatches (cs : List Char) : Bool :=
  if cs.getLast? = some '\n' then emailCore cs.dropLast else emailCore cs

/-- Embedding of `validate_email` (email_validator.py lines 7-28):
empty strings and strings not matching the regex are rejected with a
message; valid addresses give `(true, none)`. -/
def validate_email (email : List Char) : Bool × Option (List Char) :=
  if email.isEmpty then (false, some "Email cannot be empty".toList)
  else if !(emailMatches email) then (false, some "Invalid email format".toList)
  else (true, none)

/-! ## Identifier generation (`app/utils/id_generator.py`) -/

/-- Embedding of Python's `str.isdigit` restricted to ASCII data:
non-empty and consisting of decimal digits only. -/
def pyIsdigit (cs : List Char) : Bool :=
  !cs.isEmpty && cs.all Char.isDigit

/-- Decimal representation of a natural number, the embedding of
Python's f-string formatting of a non-negative integer. -/
def natRepr (n : ℕ) : List Char :=
  if n = 0 then ['0']
  else ((Nat.digits 10 n).map (fun d => Char.ofNat (48 + d))).reverse

/-- Embedding of `generate_student_id` (id_generator.py lines 7-28); the
value from `random.randint(1000, 9999)` is passed in as `rand`. A
non-3-digit enrollment code raises `ValueError`, modelled as `.error`
with the exception's message. -/
def generate_student_id (enrollment_code : List Char) (rand : ℕ) :
    Except (List Char) (List Char) :=
  if !(pyIsdigit enrollment_code) || enrollment_code.length ≠ 3 then
    .error "Enrollment code must be a 3-digit number".toList
  else
    .ok (enrollment_code ++ '-' :: natRepr rand)

/-- The student-identifier pattern `^\d\x7b3\x7d-\d\x7b4\x7d$` used by
`update_student` (student_service.py line 121) and by the spec's
`DDD-DDDD` identifier format. -/
def matchesIdPattern (cs : List Char) : Bool :=
  cs.length == 8 && (cs.take 3).all Char.isDigit && (cs.getD 3 ' ' == '-')
    && (cs.drop 4).all Char.isDigit

/-! ## The relational store (`app/database/schema.py`, `app/models/*.py`) -/

/-- A row of the `students` table (schema.py lines 22-28). -/
structure StudentRow where
  student_id : List Char
  name : List Char
  email : List Char
deriving DecidableEq

/-- A row of the `courses` table (schema.py lines 30-38). -/
structure CourseRow where
  id : ℤ
  name : List Char
  code : List Char
  credits : ℤ
deriving DecidableEq

/-- A row of the `grades` table (schema.py lines 40-53). -/
structure GradeRow where
  id : ℤ
  student_id : List Char
  course_id : ℤ
  grade : ℚ
deriving DecidableEq

/-- The database state: the three tables plus the SERIAL counter that
assigns fresh `grades.id` values. -/
structure Db where
  students : List StudentRow
  courses : List CourseRow
  grades : List GradeRow
  nextGradeId : ℤ
deriving DecidableEq

/-- Decimal representation of an integer, the embedding of Python's
Python's f-string formatting of an `int`. -/
def intRepr (n : ℤ) : List Char :=
  if n < 0 then '-' :: natRepr n.natAbs else natRepr n.toNat

/-- Embedding of `Student.get_by_id` (student.py lines 39-51): the
`SELECT ... WHERE student_id = %s` lookup. -/
def studentGetById (db : Db) (sid : List Char) : Option StudentRow :=
  db.students.find? (fun s => s.student_id == sid)

/-- Embedding of `Course.get_by_id` (course.py): the
`SELECT ... WHERE id = %s` lookup. -/
def courseGetById (db : Db) (cid : ℤ) : Option CourseRow :=
  db.courses.find? (fun c => c.id == cid)

/-- Embedding of the `self.id == 0` path of `Grade.save` (grade.py lines
185-197): `INSERT INTO grades ... ON CONFLICT (student_id, course_id) DO
UPDATE SET grade = EXCLUDED.grade`. A conflicting row (same student and
course) gets its grade replaced; otherwise a new row is inserted with a
fresh SERIAL id. -/
def gradeUpsert (db : Db) (sid : List Char) (cid : ℤ) (v : ℚ) : Db :=
  if db.grades.any (fun g => g.student_id == sid && g.course_id == cid) then
    { db with grades := db.grades.map (fun g =>
        if g.student_id == sid && g.course_id == cid then { g with grade := v }
        else g) }
  else
    { db with
      grades := db.grades ++ [⟨db.nextGradeId, sid, cid, v⟩],
      nextGradeId := db.nextGradeId + 1 }

/-- Embedding of `Grade.get_student_grades` (grade.py lines 117-144):
`SELECT ... FROM grades g JOIN students s ON g.student_id = s.student_id
JOIN courses c ON g.course_id = c.id WHERE g.student_id = %s`. The
joined display columns and the `ORDER BY c.name` clause are dropped: no
claim depends on them. -/
def get_student_grades (db : Db) (sid : List Char) : List GradeRow :=
  db.grades.filter (fun g => g.student_id == sid
    && db.students.any (fun s => s.student_id == g.student_id)
    && db.courses.any (fun c => c.id == g.course_id))

/-- Embedding of `Student.save` (student.py lines 53-82): update the
row when the student_id exists, else insert; either write stores
`standardize_email(self.email)`. `none` models the exception raised by
the store when the write violates the `UNIQUE` constraint on
`students.email` (schema.py line 26). -/
def studentSave (db : Db) (s : StudentRow) : Option Db :=
  if db.students.any (fun t => t.student_id == s.student_id) then
    if db.students.any (fun t => !(t.student_id == s.student_id)
        && t.email == standardize_email s.email) then none
    else some { db with students := db.students.map (fun t =>
      if t.student_id == s.student_id then
        { t with name := s.name, email := standardize_email s.email }
      else t) }
  else
    if db.students.any (fun t => t.email == standardize_email s.email) then none
    else some { db with students :=
      db.students ++ [⟨s.student_id, s.name, standardize_email s.email⟩] }

/-- Embedding of `Student.delete` (student.py lines 84-95):
`DELETE FROM students WHERE student_id = %s` together with the
`ON DELETE CASCADE` rule of `grades.student_id` (schema.py lines 48-49);
the Bool is `cursor.rowcount > 0`. -/
def studentDelete (db : Db) (sid : List Char) : Bool × Db :=
  (db.students.any (fun s => s.student_id == sid),
   { db with
     students := db.students.filter (fun s => !(s.student_id == sid)),
     grades := db.grades.filter (fun g => !(g.student_id == sid)) })

/-! ## The service layer (`app/services/*.py`) -/

/-- Embedding of `GradeService.add_grade` (grade_service.py lines
44-87): field validation, existence checks for student and course, then
the upsert. Returns the `(success, message)` pair and the new state. -/
def add_grade (db : Db) (student_id : List Char) (course_id : ℤ)
    (grade_value : ℚ) : (Bool × List Char) × Db :=
  if student_id.isEmpty then ((false, "Student ID is required".toList), db)
  else if course_id ≤ 0 then ((false, "Invalid course ID".toList), db)
  else if grade_value < 0 ∨ 100 < grade_value then
    ((false, "Grade must be between 0 and 100".toList), db)
  else
    match studentGetById db student_id with
    | none =>
      ((false, "Student with ID ".toList ++ student_id ++ " not found".toList), db)
    | some _ =>
      match courseGetById db course_id with
      | none =>
        ((false, "Course with ID ".toList ++ intRepr course_id ++ " not found".toList), db)
      | some _ =>
        ((true, "Grade assigned successfully".toList),
          gradeUpsert db student_id course_id grade_value)

/-- Embedding of `StudentService.delete_student` (student_service.py
lines 146-173): reject an empty id, reject a missing student, otherwise
delete (with cascade) and report `rowcount > 0`. -/
def delete_student (db : Db) (student_id : List Char) : (Bool × List Char) × Db :=
  if student_id.isEmpty then ((false, "Student ID is required".toList), db)
  else
    match studentGetById db student_id with
    | none =>
      ((false, "Student with ID ".toList ++ student_id ++ " not found".toList), db)
    | some _ =>
      if (studentDelete db student_id).1 then
        ((true, "Student deleted successfully".toList), (studentDelete db student_id).2)
      else
        ((false, "Failed to delete student".toList), (studentDelete db student_id).2)

/-- Embedding of `StudentService.add_student` (student_service.py lines
42-84); the value of `random.randint(1000, 9999)` inside
`generate_student_id` is passed in as `rand`. The text of the store
exception caught on a failed save (a duplicate email) is environment
specific and abstracted to its fixed f-string prefix. -/
def add_student (db : Db) (name email enrollment_code : List Char)
    (rand : ℕ) : (Bool × List Char) × Db :=
  if name.isEmpty then ((false, "Student name cannot be empty".toList), db)
  else if enrollment_code.isEmpty then
    ((false, "Enrollment code is required".toList), db)
  else if !(pyIsdigit enrollment_code) || enrollment_code.length ≠ 3 then
    ((false, "Enrollment code must be a 3-digit number".toList), db)
  else if !(validate_email email).1 then
    ((false, (validate_email email).2.getD []), db)
  else
    match generate_student_id enrollment_code rand with
    | .error e => ((false, "Error adding student: ".toList ++ e), db)
    | .ok sid =>
      match studentSave db ⟨sid, name, standardize_email email⟩ with
      | none => ((false, "Error adding student: ".toList), db)
      | some db' =>
        ((true, "Student added successfully with ID: ".toList ++ sid), db')

/-! ## Analytics (`app/services/grade_service.py`) -/

/-- Embedding of the query shared by `GradeService.get_student_gpa`
(grade_service.py lines 216-223) and `get_analytics_data` (lines
250-257): `SELECT g.grade, c.credits FROM grades g JOIN courses c ON
g.course_id = c.id WHERE g.student_id = %s`. -/
def gradeCreditsPairs (db : Db) (sid : List Char) : List (ℚ × ℤ) :=
  (db.grades.filter (fun g => g.student_id == sid)).flatMap (fun g =>
    (db.courses.filter (fun c => c.id == g.course_id)).map
      (fun c => (g.grade, c.credits)))

/-- Embedding of `GradeService.get_student_gpa` (grade_service.py lines
204-227). -/
def get_student_gpa (db : Db) (sid : List Char) : ℚ :=
  calculate_weighted_gpa (gradeCreditsPairs db sid)

/-- Embedding of the per-student at-risk field of
`GradeService.get_analytics_data` (grade_service.py lines 242-269):
`"Yes" if has_failing_grade(raw_grades) or student_gpa < 2.0 else "No"`,
where `raw_grades` comes from `Grade.get_student_grades` and the GPA
from the credits query. -/
def analyticsFailed (db : Db) (sid : List Char) : List Char :=
  if has_failing_grade ((get_student_grades db sid).map (fun g => g.grade))
      || decide (get_student_gpa db sid < 2) then "Yes".toList
  else "No".toList

/-- The rows of the `grades` table for one (student, course) pair; the
`UNIQUE(student_id, course_id)` constraint of schema.py line 47 says
this list never has more than one element. -/
def pairGrades (db : Db) (sid : List Char) (cid : ℤ) : List GradeRow :=
  db.grades.filter (fun g => g.student_id == sid && g.course_id == cid)

/-- Referential integrity of the `grades` table, the state guaranteed by
the two FOREIGN KEY constraints of schema.py lines 48-51: every grade
row references an existing student and an existing course. -/
def refIntegrity (db : Db) : Prop :=
  ∀ g ∈ db.grades,
    (∃ s ∈ db.students, s.student_id = g.student_id)
    ∧ (∃ c ∈ db.courses, c.id = g.course_id)

/-! ## Concrete database fixtures used by the witnesses -/

/-- A one-student, one-course database with no grades. -/
def dbSeed : Db :=
  ⟨[⟨"201-1000".toList, "Alice".toList, "alice@outlook.com".toList⟩],
   [⟨1, "Math".toList, "MATH101".toList, 3⟩], [], 1⟩

/-- `dbSeed` extended with one grade of 80 for the (student, course) pair. -/
def dbSeedG : Db :=
  ⟨[⟨"201-1000".toList, "Alice".toList, "alice@outlook.com".toList⟩],
   [⟨1, "Math".toList, "MATH101".toList, 3⟩],
   [⟨1, "201-1000".toList, 1, 80⟩], 2⟩

/-- `dbSeed` extended with one failing grade of 40 for the pair. -/
def dbSeedF : Db :=
  ⟨[⟨"201-1000".toList, "Alice".toList, "alice@outlook.com".toList⟩],
   [⟨1, "Math".toList, "MATH101".toList, 3⟩],
   [⟨1, "201-1000".toList, 1, 40⟩], 2⟩

/-! ### Helper lemmas about the grade conversion -/

lemma raw_grade_to_gpa_nonneg (r : ℚ) : 0 ≤ raw_grade_to_gpa r := by
  unfold raw_grade_to_gpa
  split_ifs <;> norm_num

lemma raw_grade_to_gpa_le_four (r : ℚ) : raw_grade_to_gpa r ≤ 4 := by
  unfold raw_grade_to_gpa
  split_ifs <;> norm_num

lemma totalPoints_nonneg (l : List (ℚ × ℤ)) (h : ∀ p ∈ l, (0 : ℤ) ≤ p.2) :
    0 ≤ totalPoints l := by
  induction l with
  | nil => simp [totalPoints]
  | cons a t ih =>
    have ha : (0 : ℤ) ≤ a.2 := h a (List.mem_cons_self a t)
    have ht : 0 ≤ totalPoints t := ih (fun p hp => h p (List.mem_cons_of_mem a hp))
    have hc : (0 : ℚ) ≤ (a.2 : ℚ) := by exact_mod_cast ha
    have := mul_nonneg (raw_grade_to_gpa_nonneg a.1) hc
    simp only [totalPoints, List.map_cons, List.sum_cons] at *
    linarith

lemma totalPoints_le (l : List (ℚ × ℤ)) (h : ∀ p ∈ l, (0 : ℤ) ≤ p.2) :
    totalPoints l ≤ 4 * (totalCredits l : ℚ) := by
  induction l with
  | nil => simp [totalPoints, totalCredits]
  | cons a t ih =>
    have ha : (0 : ℤ) ≤ a.2 := h a (List.mem_cons_self a t)
    have ht : totalPoints t ≤ 4 * (totalCredits t : ℚ) :=
      ih (fun p hp => h p (List.mem_cons_of_mem a hp))
    have hc : (0 : ℚ) ≤ (a.2 : ℚ) := by exact_mod_cast ha
    have hstep : raw_grade_to_gpa a.1 * (a.2 : ℚ) ≤ 4 * (a.2 : ℚ) :=
      mul_le_mul_of_nonneg_right (raw_grade_to_gpa_le_four a.1) hc
    simp only [totalPoints, totalCredits, List.map_cons, List.sum_cons,
      Int.cast_add] at *
    linarith

lemma floor_le_rhe (x : ℚ) : ⌊x⌋ ≤ rhe x := by
  unfold rhe
  split_ifs <;> omega

lemma rhe_le_ceil (x : ℚ) : rhe x ≤ ⌈x⌉ := by
  unfold rhe
  split_ifs with h1 h2 h3
  · exact Int.floor_le_ceil x
  all_goals {
    have hr : (1 : ℚ)/2 ≤ x - (⌊x⌋ : ℚ) := le_of_not_lt h1
    have hlt : (⌊x⌋ : ℚ) < x := by linarith
    have hx : x ≤ (⌈x⌉ : ℚ) := Int.le_ceil x
    have : (⌊x⌋ : ℚ) < (⌈x⌉ : ℚ) := lt_of_lt_of_le hlt hx
    have hfc : ⌊x⌋ < ⌈x⌉ := by exact_mod_cast this
    omega
  }

lemma rhe_intCast (n : ℤ) : rhe ((n : ℚ)) = n := by
  unfold rhe
  rw [Int.floor_intCast]
  rw [if_pos (by norm_num)]

lemma pyRound2_intCast (m : ℤ) : pyRound2 ((m : ℚ)) = (m : ℚ) := by
  unfold pyRound2
  have h : (100 : ℚ) * (m : ℚ) = (((100 * m : ℤ)) : ℚ) := by push_cast; ring
  rw [h, rhe_intCast]
  push_cast
  ring

lemma raw_grade_to_gpa_eval_95 : raw_grade_to_gpa 95 = 4 := by
  unfold raw_grade_to_gpa
  rw [if_pos (by norm_num)]

lemma raw_grade_to_gpa_eval_55 : raw_grade_to_gpa 55 = 0 := by
  unfold raw_grade_to_gpa
  rw [if_neg (by norm_num), if_neg (by norm_num), if_neg (by norm_num),
    if_neg (by norm_num)]

lemma totalPoints_example : totalPoints [((95 : ℚ), (3 : ℤ)), (55, 1)] = 12 := by
  norm_num [totalPoints, raw_grade_to_gpa_eval_95, raw_grade_to_gpa_eval_55]

lemma totalCredits_example : totalCredits [((95 : ℚ), (3 : ℤ)), (55, 1)] = 4 := by
  norm_num [totalCredits]

lemma wgpa_example : calculate_weighted_gpa [((95 : ℚ), (3 : ℤ)), (55, 1)] = 3 := by
  unfold calculate_weighted_gpa
  rw [if_neg (by simp), if_pos (by rw [totalCredits_example]; norm_num)]
  rw [totalPoints_example, totalCredits_example]
  have h : (12 : ℚ) / ((4 : ℤ) : ℚ) = ((3 : ℤ) : ℚ) := by norm_num
  rw [h, pyRound2_intCast]
  norm_num

lemma rhe_nonneg {x : ℚ} (h : 0 ≤ x) : 0 ≤ rhe x := by
  have : (0 : ℤ) ≤ ⌊x⌋ := Int.floor_nonneg.mpr h
  have := floor_le_rhe x
  omega

lemma rhe_le_400 {x : ℚ} (h : x ≤ 400) : rhe x ≤ 400 := by
  have h1 : ⌈x⌉ ≤ (400 : ℤ) := Int.ceil_le.mpr (by exact_mod_cast h)
  have := rhe_le_ceil x
  omega

lemma pyRound2_nonneg {q : ℚ} (h : 0 ≤ q) : 0 ≤ pyRound2 q := by
  unfold pyRound2
  have h0 : (0 : ℤ) ≤ rhe (100 * q) := rhe_nonneg (by linarith)
  have : (0 : ℚ) ≤ (rhe (100 * q) : ℚ) := by exact_mod_cast h0
  positivity

lemma pyRound2_le_four {q : ℚ} (h : q ≤ 4) : pyRound2 q ≤ 4 := by
  unfold pyRound2
  have h0 : rhe (100 * q) ≤ (400 : ℤ) := rhe_le_400 (by linarith)
  have hc : (rhe (100 * q) : ℚ) ≤ 400 := by exact_mod_cast h0
  linarith

/-! ### Helper lemmas about the email utilities -/

lemma pySplit_headD (sep : Char) (cs : List Char) :
    (pySplit sep cs).headD [] = cs.takeWhile (fun c => !(c == sep)) := by
  induction cs with
  | nil => rfl
  | cons c t ih =>
    by_cases h : c = sep
    · subst h
      simp [pySplit, List.takeWhile_cons]
    · have hb : (c == sep) = false := by simp [h]
      simp only [pySplit, if_neg h, List.takeWhile_cons, hb]
      cases hps : pySplit sep t with
      | nil => simp [hps] at ih; simp [ih]
      | cons p ps => simp [hps] at ih; simp [ih]

lemma standardize_email_eq (email : List Char) :
    standardize_email email =
      email.takeWhile (fun c => !(c == '@')) ++ "@outlook.com".toList := by
  unfold standardize_email
  by_cases h : email.contains '@'
  · rw [if_pos h, pySplit_headD]
  · rw [if_neg h]
    congr 1
    have hnot : ∀ c ∈ email, ¬(c = '@') := by
      intro c hc hceq
      subst hceq
      exact h (List.elem_eq_true_of_mem hc)
    rw [List.takeWhile_eq_self_iff.mpr]
    intro c hc
    simp [hnot c hc]

/-! ## Theorems for claims C1, C2, C8, C9 -/

/-- Claim C1 (amended): for every list of (rawGrade, credits) pairs whose
total credits is positive, `calculate_weighted_gpa` returns
`totalPoints / totalCredits` rounded to two decimal places; it returns
0.0 when the list is empty or the total credits is zero or negative; in
particular `calculate_weighted_gpa [] = 0` and
`calculate_weighted_gpa [(95,3),(55,1)] = 3.00`. -/
theorem calculate_weighted_gpa_spec (l : List (ℚ × ℤ)) :
    (0 < totalCredits l →
      calculate_weighted_gpa l = pyRound2 (totalPoints l / (totalCredits l : ℚ)))
    ∧ (l = [] ∨ totalCredits l ≤ 0 → calculate_weighted_gpa l = 0)
    ∧ calculate_weighted_gpa [] = 0
    ∧ calculate_weighted_gpa [((95 : ℚ), (3 : ℤ)), (55, 1)] = 3 := by
  refine ⟨?_, ?_, rfl, wgpa_example⟩
  · intro hpos
    have hne : l ≠ [] := by
      intro h
      subst h
      simp [totalCredits] at hpos
    simp only [calculate_weighted_gpa, List.isEmpty_eq_true]
    rw [if_neg hne, if_pos hpos]
  · rintro (rfl | hle)
    · rfl
    · simp only [calculate_weighted_gpa, List.isEmpty_eq_true]
      by_cases hne : l = []
      · subst hne; rfl
      · rw [if_neg hne, if_neg (by omega)]

/-- Witness for C1: the positive-total-credits clause evaluated at the
concrete list `[(95,3),(55,1)]`. -/
theorem calculate_weighted_gpa_spec_witness :
    calculate_weighted_gpa [((95 : ℚ), (3 : ℤ)), (55, 1)] =
      pyRound2 (totalPoints [((95 : ℚ), (3 : ℤ)), (55, 1)] /
        (totalCredits [((95 : ℚ), (3 : ℤ)), (55, 1)] : ℚ)) :=
  (calculate_weighted_gpa_spec [((95 : ℚ), (3 : ℤ)), (55, 1)]).1 (by decide)

/-- Counterexample to C1 as frozen: at the single pair (95, -1) the code
returns 0.0, while the claimed formula (the rounded quotient
sum(gpa*credits)/sum(credits) = (-4)/(-1) = 4) gives 4.0. -/
theorem calculate_weighted_gpa_claim_counterexample :
    calculate_weighted_gpa [((95 : ℚ), (-1 : ℤ))] = 0
    ∧ pyRound2 (totalPoints [((95 : ℚ), (-1 : ℤ))] /
        (totalCredits [((95 : ℚ), (-1 : ℤ))] : ℚ)) = 4
    ∧ (0 : ℚ) ≠ 4 := by
  have hp : totalPoints [((95 : ℚ), (-1 : ℤ))] = -4 := by
    norm_num [totalPoints, raw_grade_to_gpa_eval_95]
  have hc : totalCredits [((95 : ℚ), (-1 : ℤ))] = -1 := by
    norm_num [totalCredits]
  refine ⟨?_, ?_, by norm_num⟩
  · unfold calculate_weighted_gpa
    rw [if_neg (by simp), if_neg (by rw [hc]; norm_num)]
  · rw [hp, hc]
    have h : (-4 : ℚ) / (((-1 : ℤ)) : ℚ) = (((4 : ℤ)) : ℚ) := by norm_num
    rw [h, pyRound2_intCast]
    norm_num

/-- Claim C2: `raw_grade_to_letter` returns A/B/C/D/F on the bands
[90,∞), [80,90), [70,80), [60,70), (-∞,60), each lower bound inclusive,
and `raw_grade_to_gpa` returns 4.0/3.0/2.0/1.0/0.0 on the identical
bands; both are total over all of ℚ (including inputs outside [0,100]);
in particular raw = 90 gives A and raw = 89.999 gives B. -/
theorem grade_bands_spec (r : ℚ) :
    (90 ≤ r → raw_grade_to_letter r = "A".toList ∧ raw_grade_to_gpa r = 4)
    ∧ (80 ≤ r ∧ r < 90 → raw_grade_to_letter r = "B".toList ∧ raw_grade_to_gpa r = 3)
    ∧ (70 ≤ r ∧ r < 80 → raw_grade_to_letter r = "C".toList ∧ raw_grade_to_gpa r = 2)
    ∧ (60 ≤ r ∧ r < 70 → raw_grade_to_letter r = "D".toList ∧ raw_grade_to_gpa r = 1)
    ∧ (r < 60 → raw_grade_to_letter r = "F".toList ∧ raw_grade_to_gpa r = 0)
    ∧ raw_grade_to_letter 90 = "A".toList
    ∧ raw_grade_to_letter (89999/1000) = "B".toList := by
  unfold raw_grade_to_letter raw_grade_to_gpa
  refine ⟨fun h => ?_, fun h => ?_, fun h => ?_, fun h => ?_, fun h => ?_, ?_, ?_⟩
  · rw [if_pos h, if_pos h]
    exact ⟨rfl, rfl⟩
  · rw [if_neg (by linarith [h.2]), if_pos h.1, if_neg (by linarith [h.2]), if_pos h.1]
    exact ⟨rfl, rfl⟩
  · rw [if_neg (by linarith [h.2]), if_neg (by linarith [h.2]), if_pos h.1,
      if_neg (by linarith [h.2]), if_neg (by linarith [h.2]), if_pos h.1]
    exact ⟨rfl, rfl⟩
  · rw [if_neg (by linarith [h.2]), if_neg (by linarith [h.2]),
      if_neg (by linarith [h.2]), if_pos h.1, if_neg (by linarith [h.2]),
      if_neg (by linarith [h.2]), if_neg (by linarith [h.2]), if_pos h.1]
    exact ⟨rfl, rfl⟩
  · rw [if_neg (by linarith), if_neg (by linarith), if_neg (by linarith),
      if_neg (by linarith), if_neg (by linarith), if_neg (by linarith),
      if_neg (by linarith), if_neg (by linarith)]
    exact ⟨rfl, rfl⟩
  · rw [if_pos (by norm_num)]
  · rw [if_neg (by norm_num), if_pos (by norm_num)]

/-- Witness for C2: the bands evaluated at 95 (A band) and at 42 (F band). -/
theorem grade_bands_spec_witness :
    (raw_grade_to_letter 95 = "A".toList ∧ raw_grade_to_gpa 95 = 4)
    ∧ (raw_grade_to_letter 42 = "F".toList ∧ raw_grade_to_gpa 42 = 0) :=
  ⟨(grade_bands_spec 95).1 (by norm_num),
   ((grade_bands_spec 42).2.2.2.2).1 (by norm_num)⟩

/-- Claim C8: `calculate_weighted_gpa` is order-independent — it returns
the same value on any permutation of its input list. -/
theorem calculate_weighted_gpa_perm (l l' : List (ℚ × ℤ)) (h : l.Perm l') :
    calculate_weighted_gpa l = calculate_weighted_gpa l' := by
  have hpts : totalPoints l = totalPoints l' := (h.map _).sum_eq
  have hcred : totalCredits l = totalCredits l' := (h.map _).sum_eq
  have hlen : l.length = l'.length := h.length_eq
  have hemp : l.isEmpty = l'.isEmpty := by
    cases l with
    | nil => cases l' with
      | nil => rfl
      | cons a t => simp at hlen
    | cons a t => cases l' with
      | nil => simp at hlen
      | cons b t' => rfl
  unfold calculate_weighted_gpa
  rw [hpts, hcred, hemp]

/-- Witness for C8: the permutation swapping the two pairs of the
concrete list `[(95,3),(55,1)]`. -/
theorem calculate_weighted_gpa_perm_witness :
    calculate_weighted_gpa [((95 : ℚ), (3 : ℤ)), (55, 1)] =
      calculate_weighted_gpa [((55 : ℚ), (1 : ℤ)), (95, 3)] :=
  calculate_weighted_gpa_perm _ _ (by decide)

/-- Claim C9: when every credits value is non-negative, the result of
`calculate_weighted_gpa` lies in the closed interval [0, 4]. -/
theorem calculate_weighted_gpa_range (l : List (ℚ × ℤ))
    (h : ∀ p ∈ l, (0 : ℤ) ≤ p.2) :
    0 ≤ calculate_weighted_gpa l ∧ calculate_weighted_gpa l ≤ 4 := by
  unfold calculate_weighted_gpa
  split_ifs with h1 h2
  · norm_num
  · have hc0 : (0 : ℚ) < (totalCredits l : ℚ) := by exact_mod_cast h2
    have hnn := totalPoints_nonneg l h
    have hle := totalPoints_le l h
    have hq0 : 0 ≤ totalPoints l / (totalCredits l : ℚ) := div_nonneg hnn (le_of_lt hc0)
    have hq4 : totalPoints l / (totalCredits l : ℚ) ≤ 4 := by
      rw [div_le_iff₀ hc0]
      linarith
    exact ⟨pyRound2_nonneg hq0, pyRound2_le_four hq4⟩
  · norm_num

/-- Witness for C9: the range theorem evaluated at the concrete list
`[(95,3),(55,1)]`, whose credits 3 and 1 are non-negative. -/
theorem calculate_weighted_gpa_range_witness :
    0 ≤ calculate_weighted_gpa [((95 : ℚ), (3 : ℤ)), (55, 1)]
    ∧ calculate_weighted_gpa [((95 : ℚ), (3 : ℤ)), (55, 1)] ≤ 4 :=
  calculate_weighted_gpa_range _ (by decide)


/-! ## Theorems for claims C7 and C10 -/

/-- Claim C7: email normalization takes the local part (the substring
before the first `@`, or the whole string when no `@` is present) and
rejoins it with the fixed domain suffix `@outlook.com`; the transform is
deterministic; and `Student.save` stores `standardize_email` of the
given email on every write, in both its update and its insert branch. -/
theorem standardize_email_spec :
    (∀ e : List Char, standardize_email e =
      e.takeWhile (fun c => !(c == '@')) ++ "@outlook.com".toList)
    ∧ (∀ e₁ e₂ : List Char, e₁ = e₂ → standardize_email e₁ = standardize_email e₂)
    ∧ (∀ (db : Db) (s : StudentRow) (db' : Db), studentSave db s = some db' →
        ∀ t ∈ db'.students, t.student_id = s.student_id →
          t.email = standardize_email s.email) := by
  refine ⟨standardize_email_eq, fun e₁ e₂ h => by rw [h], ?_⟩
  intro db s db' hsave t ht hts
  unfold studentSave at hsave
  by_cases h1 : (db.students.any fun t => t.student_id == s.student_id) = true
  · rw [if_pos h1] at hsave
    by_cases h2 : (db.students.any fun t =>
        !(t.student_id == s.student_id) && t.email == standardize_email s.email) = true
    · rw [if_pos h2] at hsave
      exact absurd hsave (by simp)
    · rw [if_neg h2] at hsave
      obtain rfl := Option.some.inj hsave
      simp only [List.mem_map] at ht
      obtain ⟨u, hu, hut⟩ := ht
      by_cases hcase : (u.student_id == s.student_id) = true
      · rw [if_pos hcase] at hut
        rw [← hut]
      · rw [if_neg hcase] at hut
        subst hut
        exact absurd (beq_iff_eq.mpr hts) hcase
  · rw [if_neg h1] at hsave
    by_cases h3 : (db.students.any fun t => t.email == standardize_email s.email) = true
    · rw [if_pos h3] at hsave
      exact absurd hsave (by simp)
    · rw [if_neg h3] at hsave
      obtain rfl := Option.some.inj hsave
      simp only [List.mem_append, List.mem_singleton] at ht
      rcases ht with hmem | rfl
      · exfalso
        apply h1
        rw [List.any_eq_true]
        exact ⟨t, hmem, beq_iff_eq.mpr hts⟩
      · rfl

/-- Witness for C7: the save clause evaluated on the empty database with
a concrete student whose raw email is `jane@x.com`. -/
theorem standardize_email_spec_witness :
    (⟨"201-1000".toList, "Jane".toList, "jane@outlook.com".toList⟩ : StudentRow).email
      = standardize_email "jane@x.com".toList :=
  standardize_email_spec.2.2 ⟨[], [], [], 1⟩
    ⟨"201-1000".toList, "Jane".toList, "jane@x.com".toList⟩
    ⟨[⟨"201-1000".toList, "Jane".toList, "jane@outlook.com".toList⟩], [], [], 1⟩
    (by decide) _ (by decide) (by decide)

/-- Elements picked by `takeWhile` satisfy the predicate, and appending
below a totally satisfying prefix commutes with `takeWhile`. -/
lemma takeWhile_append_of_all {p : Char → Bool} {l₁ l₂ : List Char}
    (h : ∀ c ∈ l₁, p c = true) :
    (l₁ ++ l₂).takeWhile p = l₁ ++ l₂.takeWhile p := by
  induction l₁ with
  | nil => simp
  | cons c t ih =>
    simp only [List.cons_append, List.takeWhile_cons,
      h c (List.mem_cons_self c t)]
    rw [ih (fun x hx => h x (List.mem_cons_of_mem c hx))]
    simp

/-- Claim C10: `standardize_email` is idempotent. -/
theorem standardize_email_idem (e : List Char) :
    standardize_email (standardize_email e) = standardize_email e := by
  rw [standardize_email_eq e, standardize_email_eq,
    takeWhile_append_of_all (fun c hc => List.mem_takeWhile_imp hc)]
  have h : ("@outlook.com".toList).takeWhile (fun c => !(c == '@')) = [] := rfl
  rw [h, List.append_nil]

/-! ## Theorems for claim C3 (grade upsert uniqueness) -/

/-- Filtering for one (student, course) pair commutes with the grade
rewrite performed by the update branch of the upsert. -/
lemma filter_pair_map_update (l : List GradeRow) (sid : List Char) (cid : ℤ)
    (v : ℚ) :
    (l.map (fun g => if g.student_id == sid && g.course_id == cid then
        { g with grade := v } else g)).filter
          (fun g => g.student_id == sid && g.course_id == cid)
      = (l.filter (fun g => g.student_id == sid && g.course_id == cid)).map
          (fun g => { g with grade := v }) := by
  induction l with
  | nil => rfl
  | cons a t ih =>
    by_cases ha : (a.student_id == sid && a.course_id == cid) = true
    · simp only [List.map_cons, List.filter_cons, if_pos ha, ha, ih]
      simp
      rw [Bool.and_eq_true, beq_iff_eq, beq_iff_eq] at ha
      exact ha
    · simp only [List.map_cons, List.filter_cons, if_neg ha, ha, ih]
      simp [Bool.not_eq_true] at ha
      simp [ha]
      exact ha

/-- One upsert leaves exactly one row for the pair, carrying the written
value, provided the pair-uniqueness invariant held before. -/
lemma pairGrades_gradeUpsert (db : Db) (sid : List Char) (cid : ℤ) (v : ℚ)
    (h : (pairGrades db sid cid).length ≤ 1) :
    (pairGrades (gradeUpsert db sid cid v) sid cid).length = 1
    ∧ ∀ g ∈ pairGrades (gradeUpsert db sid cid v) sid cid, g.grade = v := by
  unfold pairGrades at h ⊢
  unfold gradeUpsert
  by_cases hany :
      (db.grades.any (fun g => g.student_id == sid && g.course_id == cid)) = true
  · rw [if_pos hany]
    simp only
    rw [filter_pair_map_update]
    constructor
    · rw [List.length_map]
      have hne : db.grades.filter
          (fun g => g.student_id == sid && g.course_id == cid) ≠ [] := by
        intro hnil
        rw [List.any_eq_true] at hany
        obtain ⟨x, hx, hpx⟩ := hany
        have hxm : x ∈ db.grades.filter
            (fun g => g.student_id == sid && g.course_id == cid) :=
          List.mem_filter.mpr ⟨hx, hpx⟩
        rw [hnil] at hxm
        exact absurd hxm (List.not_mem_nil x)
      have := List.length_pos.mpr hne
      omega
    · intro g hg
      rw [List.mem_map] at hg
      obtain ⟨u, hu, rfl⟩ := hg
      rfl
  · rw [if_neg hany]
    simp only
    rw [List.filter_append]
    have hemp : db.grades.filter
        (fun g => g.student_id == sid && g.course_id == cid) = [] := by
      rw [List.filter_eq_nil_iff]
      intro a ha hpa
      exact hany (List.any_eq_true.mpr ⟨a, ha, hpa⟩)
    rw [hemp]
    simp [beq_self_eq_true]

/-- A successful `add_grade` call leaves the state produced by the
upsert. -/
lemma add_grade_success_state (db : Db) (sid : List Char) (cid : ℤ) (v : ℚ)
    (h : (add_grade db sid cid v).1.1 = true) :
    (add_grade db sid cid v).2 = gradeUpsert db sid cid v := by
  unfold add_grade at h ⊢
  by_cases h1 : sid.isEmpty = true
  · rw [if_pos h1] at h
    exact absurd h (by simp)
  · rw [if_neg h1] at h ⊢
    by_cases h2 : cid ≤ 0
    · rw [if_pos h2] at h
      exact absurd h (by simp)
    · rw [if_neg h2] at h ⊢
      by_cases h3 : v < 0 ∨ 100 < v
      · rw [if_pos h3] at h
        exact absurd h (by simp)
      · rw [if_neg h3] at h ⊢
        rcases hs : studentGetById db sid with _ | s
        · rw [hs] at h
          exact absurd h (by simp)
        · rw [hs] at h
          rcases hc : courseGetById db cid with _ | c
          · rw [hc] at h
            exact absurd h (by simp)
          · rfl

/-- Claim C3: starting from a state where the (student, course) pair has
at most one grade row (the `UNIQUE(student_id, course_id)` constraint),
two successful `add_grade` calls for the same pair leave exactly one
grade row for that pair, and it carries the second value: the second
call overwrites rather than duplicating. -/
theorem add_grade_upsert (db : Db) (sid : List Char) (cid : ℤ) (v₁ v₂ : ℚ)
    (hu : (pairGrades db sid cid).length ≤ 1)
    (h1 : (add_grade db sid cid v₁).1.1 = true)
    (h2 : (add_grade (add_grade db sid cid v₁).2 sid cid v₂).1.1 = true) :
    (pairGrades (add_grade (add_grade db sid cid v₁).2 sid cid v₂).2 sid cid).length = 1
    ∧ ∀ g ∈ pairGrades (add_grade (add_grade db sid cid v₁).2 sid cid v₂).2 sid cid,
        g.grade = v₂ := by
  rw [add_grade_success_state db sid cid v₁ h1] at h2 ⊢
  rw [add_grade_success_state _ sid cid v₂ h2]
  have s1 := pairGrades_gradeUpsert db sid cid v₁ hu
  exact pairGrades_gradeUpsert _ sid cid v₂ (by omega)

/-- Witness for C3: two `add_grade` calls on the seeded database with
values 80 then 90 leave one row for the pair. -/
theorem add_grade_upsert_witness :
    (pairGrades (add_grade (add_grade dbSeed "201-1000".toList 1 80).2
        "201-1000".toList 1 90).2 "201-1000".toList 1).length = 1 :=
  (add_grade_upsert dbSeed "201-1000".toList 1 80 90 (by decide) (by decide)
    (by decide)).1

/-! ## Theorems for claim C4 (student deletion cascade) -/

/-- Claim C4: `delete_student` fails when no student with the given id
exists; on success it removes the student row and every grade row
referencing it (the cascade), so a subsequent `get_student_grades`
query for that id returns the empty list. -/
theorem delete_student_spec (db : Db) (sid : List Char) :
    ((∀ s ∈ db.students, s.student_id ≠ sid) →
      (delete_student db sid).1.1 = false)
    ∧ ((delete_student db sid).1.1 = true →
        (∀ s ∈ (delete_student db sid).2.students, s.student_id ≠ sid)
        ∧ (∀ g ∈ (delete_student db sid).2.grades, g.student_id ≠ sid)
        ∧ get_student_grades (delete_student db sid).2 sid = []) := by
  unfold delete_student
  by_cases h1 : sid.isEmpty = true
  · rw [if_pos h1]
    exact ⟨fun _ => rfl, fun hc => absurd hc (by simp)⟩
  · rw [if_neg h1]
    rcases hs : studentGetById db sid with _ | s
    · refine ⟨fun _ => rfl, fun hc => absurd hc (by simp)⟩
    · unfold studentGetById at hs
      have hmem := List.mem_of_find?_eq_some hs
      have hpred := List.find?_some hs
      have hd : (studentDelete db sid).1 = true := by
        unfold studentDelete
        rw [List.any_eq_true]
        exact ⟨s, hmem, hpred⟩
      rw [if_pos hd]
      constructor
      · intro hnone
        exfalso
        exact hnone s hmem (beq_iff_eq.mp hpred)
      · intro _
        refine ⟨?_, ?_, ?_⟩
        · intro t ht
          have ht2 := (List.mem_filter.mp ht).2
          simpa using ht2
        · intro g hg
          have hg2 := (List.mem_filter.mp hg).2
          simpa using hg2
        · unfold get_student_grades
          rw [List.filter_eq_nil_iff]
          intro g hg hpg
          have hg2 := (List.mem_filter.mp hg).2
          rw [Bool.not_eq_true'] at hg2
          rw [Bool.and_eq_true, Bool.and_eq_true] at hpg
          rw [hg2] at hpg
          exact absurd hpg.1.1 (by simp)

/-- Witness for C4: deleting the seeded student removes their grade row
and empties the subsequent grade query. -/
theorem delete_student_spec_witness :
    (∀ g ∈ (delete_student dbSeedG "201-1000".toList).2.grades,
      g.student_id ≠ "201-1000".toList)
    ∧ get_student_grades (delete_student dbSeedG "201-1000".toList).2
        "201-1000".toList = [] :=
  ⟨((delete_student_spec dbSeedG "201-1000".toList).2 (by decide)).2.1,
   ((delete_student_spec dbSeedG "201-1000".toList).2 (by decide)).2.2⟩

/-! ## Theorems for claim C6 (at-risk flag in the analytics snapshot) -/

/-- Under referential integrity, the joined per-student grade query
degenerates to the plain filter on the student id. -/
lemma get_student_grades_of_refIntegrity (db : Db) (s : StudentRow)
    (hmem : s ∈ db.students) (href : refIntegrity db) :
    get_student_grades db s.student_id =
      db.grades.filter (fun g => g.student_id == s.student_id) := by
  unfold get_student_grades
  apply List.filter_congr
  intro g hg
  by_cases hsid : (g.student_id == s.student_id) = true
  · obtain ⟨c, hc1, hc2⟩ := (href g hg).2
    have hcourse : (db.courses.any fun c => c.id == g.course_id) = true :=
      List.any_eq_true.mpr ⟨c, hc1, beq_iff_eq.mpr hc2⟩
    have hstu : (db.students.any fun t => t.student_id == g.student_id) = true :=
      List.any_eq_true.mpr ⟨s, hmem, beq_iff_eq.mpr (beq_iff_eq.mp hsid).symm⟩
    simp [hsid, hstu, hcourse]
  · simp [hsid]

/-- Claim C6: for every student in the snapshot, the reported "failed"
flag is "Yes" exactly when the student has at least one raw grade below
60 or the student's credit-weighted GPA is strictly below 2.0. The
hypotheses are the schema's FOREIGN KEY guarantees. -/
theorem analytics_at_risk (db : Db) (s : StudentRow) (hmem : s ∈ db.students)
    (href : refIntegrity db) :
    analyticsFailed db s.student_id = "Yes".toList ↔
      ((∃ g ∈ db.grades, g.student_id = s.student_id ∧ g.grade < 60)
        ∨ get_student_gpa db s.student_id < 2) := by
  have hjoin := get_student_grades_of_refIntegrity db s hmem href
  constructor
  · intro hyes
    unfold analyticsFailed at hyes
    by_cases hcond : (has_failing_grade
        ((get_student_grades db s.student_id).map (fun g => g.grade))
        || decide (get_student_gpa db s.student_id < 2)) = true
    · rw [Bool.or_eq_true] at hcond
      rcases hcond with hf | hg2
      · left
        unfold has_failing_grade at hf
        rw [List.any_eq_true] at hf
        obtain ⟨x, hx, hxlt⟩ := hf
        rw [List.mem_map] at hx
        obtain ⟨g, hgmem, rfl⟩ := hx
        rw [hjoin, List.mem_filter] at hgmem
        exact ⟨g, hgmem.1, beq_iff_eq.mp hgmem.2, of_decide_eq_true hxlt⟩
      · right
        exact of_decide_eq_true hg2
    · rw [if_neg hcond] at hyes
      exact absurd hyes (by decide)
  · intro hdisj
    unfold analyticsFailed
    have hcond : (has_failing_grade
        ((get_student_grades db s.student_id).map (fun g => g.grade))
        || decide (get_student_gpa db s.student_id < 2)) = true := by
      rw [Bool.or_eq_true]
      rcases hdisj with ⟨g, hgmem, hsid, hlt⟩ | hgpa
      · left
        unfold has_failing_grade
        rw [List.any_eq_true]
        refine ⟨g.grade, ?_, decide_eq_true hlt⟩
        rw [List.mem_map]
        refine ⟨g, ?_, rfl⟩
        rw [hjoin, List.mem_filter]
        exact ⟨hgmem, beq_iff_eq.mpr hsid⟩
      · right
        exact decide_eq_true hgpa
    rw [if_pos hcond]

/-- Witness for C6: on the database whose one student has a single
failing grade of 40, the flag is settled by the theorem. -/
theorem analytics_at_risk_witness :
    analyticsFailed dbSeedF "201-1000".toList = "Yes".toList ↔
      ((∃ g ∈ dbSeedF.grades, g.student_id = "201-1000".toList ∧ g.grade < 60)
        ∨ get_student_gpa dbSeedF "201-1000".toList < 2) :=
  analytics_at_risk dbSeedF
    ⟨"201-1000".toList, "Alice".toList, "alice@outlook.com".toList⟩
    (by decide) (by unfold refIntegrity; decide)

/-! ## Theorems for claim C5 (add_student validation and id format) -/

/-- Every character of the decimal representation is a digit. -/
lemma natRepr_all_digits (n : ℕ) : (natRepr n).all Char.isDigit = true := by
  unfold natRepr
  by_cases hn0 : n = 0
  · rw [if_pos hn0]
    rfl
  · rw [if_neg hn0, List.all_eq_true]
    intro c hc
    rw [List.mem_reverse, List.mem_map] at hc
    obtain ⟨d, hd, rfl⟩ := hc
    have hlt : d < 10 := Nat.digits_lt_base (by norm_num) hd
    interval_cases d <;> decide

/-- The decimal representation of a number in [1000, 9999] has exactly
four characters. -/
lemma natRepr_length_four {n : ℕ} (h1 : 1000 ≤ n) (h2 : n ≤ 9999) :
    (natRepr n).length = 4 := by
  have hn0 : n ≠ 0 := by omega
  unfold natRepr
  rw [if_neg hn0, List.length_reverse, List.length_map]
  rw [Nat.digits_len 10 n (by norm_num) hn0]
  have hlog : Nat.log 10 n = 3 :=
    Nat.log_eq_of_pow_le_of_lt_pow (by norm_num; omega) (by norm_num; omega)
  omega

/-- A three-digit code joined by a hyphen to the decimal representation
of a number in [1000, 9999] matches the `DDD-DDDD` pattern. -/
lemma matchesIdPattern_gen (code : List Char) (rand : ℕ)
    (hdig : code.all Char.isDigit = true) (hlen : code.length = 3)
    (h1 : 1000 ≤ rand) (h2 : rand ≤ 9999) :
    matchesIdPattern (code ++ '-' :: natRepr rand) = true := by
  obtain ⟨a, b, c, rfl⟩ := List.length_eq_three.mp hlen
  have hr4 := natRepr_length_four h1 h2
  have hrd := natRepr_all_digits rand
  simp only [List.all_cons, Bool.and_eq_true] at hdig
  unfold matchesIdPattern
  simp [List.getD_cons_succ, List.getD_cons_zero, hr4, hrd,
    hdig.1, hdig.2.1, hdig.2.2.1]

/-- A successful `add_student` call implies the enrollment code was
three digits, the email passed validation, and the returned message is
the fixed prefix followed by the generated identifier. -/
lemma add_student_success (db : Db) (name email code : List Char) (rand : ℕ)
    (h : (add_student db name email code rand).1.1 = true) :
    pyIsdigit code = true ∧ code.length = 3
    ∧ (validate_email email).1 = true
    ∧ (add_student db name email code rand).1.2 =
        "Student added successfully with ID: ".toList
          ++ (code ++ '-' :: natRepr rand) := by
  unfold add_student at h ⊢
  by_cases h1 : name.isEmpty = true
  · rw [if_pos h1] at h
    exact absurd h (by simp)
  · rw [if_neg h1] at h ⊢
    by_cases h2 : code.isEmpty = true
    · rw [if_pos h2] at h
      exact absurd h (by simp)
    · rw [if_neg h2] at h ⊢
      by_cases h3 : (!(pyIsdigit code) || code.length ≠ 3) = true
      · rw [if_pos h3] at h
        exact absurd h (by simp)
      · rw [if_neg h3] at h ⊢
        have hdig : pyIsdigit code = true ∧ code.length = 3 := by
          simp only [Bool.or_eq_true, Bool.not_eq_true', decide_eq_true_eq,
            not_or] at h3
          obtain ⟨ha, hb⟩ := h3
          constructor
          · cases hc : pyIsdigit code
            · exact absurd hc ha
            · rfl
          · by_contra hne
            exact hb hne
        by_cases h4 : (!(validate_email email).1) = true
        · rw [if_pos h4] at h
          exact absurd h (by simp)
        · rw [if_neg h4] at h ⊢
          have hvt : (validate_email email).1 = true := by
            cases hb : (validate_email email).1
            · exact absurd (by rw [hb]; rfl) h4
            · rfl
          have hgen : generate_student_id code rand =
              .ok (code ++ '-' :: natRepr rand) := by
            unfold generate_student_id
            rw [if_neg h3]
          simp only [hgen] at h ⊢
          rcases hsave : studentSave db
              ⟨code ++ '-' :: natRepr rand, name, standardize_email email⟩
            with _ | db'
          · simp only [hsave] at h
            exact absurd h (by simp)
          · simp only [hsave]
            exact ⟨hdig.1, hdig.2, hvt, by trivial⟩

/-- Claim C5: `add_student` fails when the name is empty, when the
enrollment code is not exactly three digits, or when the email fails
syntactic validation; and whenever it succeeds — for any value of the
random four-digit suffix — the message carries the generated identifier
`enrollmentCode-DDDD`, which matches the `DDD-DDDD` pattern. -/
theorem add_student_spec (db : Db) (name email code : List Char) (rand : ℕ)
    (hr1 : 1000 ≤ rand) (hr2 : rand ≤ 9999) :
    (name = [] → (add_student db name email code rand).1.1 = false)
    ∧ (¬(pyIsdigit code = true ∧ code.length = 3) →
        (add_student db name email code rand).1.1 = false)
    ∧ ((validate_email email).1 = false →
        (add_student db name email code rand).1.1 = false)
    ∧ ((add_student db name email code rand).1.1 = true →
        (add_student db name email code rand).1.2 =
          "Student added successfully with ID: ".toList
            ++ (code ++ '-' :: natRepr rand)
        ∧ matchesIdPattern (code ++ '-' :: natRepr rand) = true) := by
  refine ⟨?_, ?_, ?_, ?_⟩
  · intro hname
    subst hname
    unfold add_student
    simp
  · intro hcode
    cases hb : (add_student db name email code rand).1.1
    · rfl
    · obtain ⟨hd, hl, _, _⟩ := add_student_success db name email code rand hb
      exact absurd ⟨hd, hl⟩ hcode
  · intro hv
    cases hb : (add_student db name email code rand).1.1
    · rfl
    · obtain ⟨_, _, hvt, _⟩ := add_student_success db name email code rand hb
      rw [hv] at hvt
      exact absurd hvt (by simp)
  · intro hsucc
    obtain ⟨hd, hl, _, hmsg⟩ := add_student_success db name email code rand hsucc
    refine ⟨hmsg, matchesIdPattern_gen code rand ?_ hl hr1 hr2⟩
    unfold pyIsdigit at hd
    simp only [Bool.and_eq_true] at hd
    exact hd.2

/-- Witness for C5: on the empty database, adding Jane with email
jane@x.com, enrollment code 201 and suffix 1234 succeeds, and the
theorem yields the message form and the pattern match. -/
theorem add_student_spec_witness :
    (add_student ⟨[], [], [], 1⟩ "Jane".toList "jane@x.com".toList
        "201".toList 1234).1.2 =
      "Student added successfully with ID: ".toList
        ++ ("201".toList ++ '-' :: natRepr 1234)
    ∧ matchesIdPattern ("201".toList ++ '-' :: natRepr 1234) = true :=
  (add_student_spec ⟨[], [], [], 1⟩ "Jane".toList "jane@x.com".toList
    "201".toList 1234 (by decide) (by decide)).2.2.2 (by decide)
